import Mathlib

/-!
# Verification of the toolsgen generation pipeline

A shallow embedding of the `toolsgen` Python package: the subset sampler
(`src/toolsgen/sampling.py`), the judge schema (`src/toolsgen/judge/scorer.py`),
the record generator (`src/toolsgen/generator.py`), the JSONL writer
(`src/toolsgen/io/writer.py`) and the resilient chat client
(`src/toolsgen/providers/openai_compat.py`).

Conventions used throughout:
- Python `float` values are modelled as `ℚ` (exact rational arithmetic standing
  in for IEEE doubles; none of the verified properties depend on rounding).
- Python `dict` values are modelled as association lists with unique keys.
- CPython's `random.Random` is embedded concretely as the MT19937 generator it
  wraps (seeding via `init_by_array`, Fisher-Yates `shuffle`, `getrandbits`
  based `_randbelow`). An unseeded generator draws OS entropy in CPython; it
  is modelled with a fixed key, and no determinism theorem is stated about it.
- Network calls performed by the OpenAI client are modelled by passing the
  environment's responses (or raised errors) in as data.
-/

namespace Toolsgen

/-- JSON-like values, modelling Python `Any` inside tool parameter schemas and
raw tool-call payloads. Objects are association lists with unique keys. -/
inductive JsonVal where
  | null : JsonVal
  | bool (b : Bool) : JsonVal
  | num (n : Int) : JsonVal
  | str (s : String) : JsonVal
  | arr (items : List JsonVal) : JsonVal
  | obj (fields : List (String × JsonVal)) : JsonVal

/-- Python `dict.get` on a modelled JSON object (first binding wins; modelled
dicts have unique keys). -/
def jsonLookup (fields : List (String × JsonVal)) (key : String) : Option JsonVal :=
  (fields.find? (fun p => p.1 = key)).map Prod.snd

/-- `schema.ToolFunction`: `name`, optional `description`, `parameters` dict. -/
structure ToolFunction where
  name : String
  description : Option String := none
  parameters : List (String × JsonVal) := []

/-- `schema.ToolSpec`: wraps a `ToolFunction`; `type` is `Literal["function"]`
with default `"function"`. -/
structure ToolSpec where
  type : String := "function"
  function : ToolFunction

instance : Inhabited ToolSpec := ⟨{ function := { name := "" } }⟩

/-! ## MT19937, as wrapped by CPython `random.Random`

The constants and update rules follow the reference mt19937ar implementation
that CPython's `_randommodule.c` embeds. All words are kept below `2 ^ 32`.
-/

def u32 : Nat := 4294967296

def mtN : Nat := 624

def mtM : Nat := 397

/-- Mersenne-Twister generator state: 624 words plus the output index. -/
structure MT where
  state : Array Nat
  idx : Nat

def mtAget (a : Array Nat) (i : Nat) : Nat := a.getD i 0

def mtAset (a : Array Nat) (i : Nat) (v : Nat) : Array Nat := a.set! i v

def mtInitGenrandGo (prev i fuel : Nat) (acc : Array Nat) : Array Nat :=
  match fuel with
  | 0 => acc
  | fuel + 1 =>
    let v := (1812433253 * (prev ^^^ (prev >>> 30)) + i) % u32
    mtInitGenrandGo v (i + 1) fuel (acc.push v)

/-- `init_genrand(s)`. -/
def mtInitGenrand (s : Nat) : Array Nat :=
  mtInitGenrandGo (s % u32) 1 (mtN - 1) #[s % u32]

def mtMixKeyGo (key a : Array Nat) (i j k : Nat) : Array Nat × Nat :=
  match k with
  | 0 => (a, i)
  | k + 1 =>
    let prev := mtAget a (i - 1)
    let mixed := ((prev ^^^ (prev >>> 30)) * 1664525) % u32
    let v := ((mtAget a i ^^^ mixed) + mtAget key j + j) % u32
    let a := mtAset a i v
    let i := i + 1
    let j := j + 1
    let (a, i) := if mtN ≤ i then (mtAset a 0 (mtAget a (mtN - 1)), 1) else (a, i)
    let j := if key.size ≤ j then 0 else j
    mtMixKeyGo key a i j k

def mtMixSubGo (a : Array Nat) (i k : Nat) : Array Nat :=
  match k with
  | 0 => a
  | k + 1 =>
    let prev := mtAget a (i - 1)
    let mixed := ((prev ^^^ (prev >>> 30)) * 1566083941) % u32
    let v := ((mtAget a i ^^^ mixed) + u32 - i % u32) % u32
    let a := mtAset a i v
    let i := i + 1
    let (a, i) := if mtN ≤ i then (mtAset a 0 (mtAget a (mtN - 1)), 1) else (a, i)
    mtMixSubGo a i k

/-- `init_by_array(key)`. -/
def mtInitByArray (key : Array Nat) : Array Nat :=
  let a := mtInitGenrand 19650218
  let (a, i) := mtMixKeyGo key a 1 0 (max mtN key.size)
  let a := mtMixSubGo a i (mtN - 1)
  mtAset a 0 2147483648

/-- CPython splits the (absolute value of the) integer seed into little-endian
32-bit words; the seed 0 yields the single-word key `[0]`. -/
def seedWords (n : Nat) : List Nat :=
  if h : n = 0 then [] else (n % u32) :: seedWords (n / u32)
termination_by n
decreasing_by exact Nat.div_lt_self (Nat.pos_of_ne_zero h) (by decide)

def seedKey (seed : Nat) : Array Nat :=
  if seed = 0 then #[0] else (seedWords seed).toArray

def mtInitNat (seed : Nat) : MT :=
  { state := mtInitByArray (seedKey seed), idx := mtN }

/-- `random.Random(seed)`. A `none` seed draws OS entropy in CPython; it is
modelled with the fixed key 0, and no theorem below relies on its value. -/
def mtInitOpt : Option Nat → MT
  | some s => mtInitNat s
  | none => mtInitNat 0

/-- One full state regeneration (the "twist"). The sequential fold matches the
three C loops: index `kk` reads `mt[(kk+1) % n]` and `mt[(kk+m) % n]` from the
partially updated array exactly as the C code does. -/
def mtTwist (a : Array Nat) : Array Nat :=
  (List.range mtN).foldl
    (fun acc kk =>
      let y := (mtAget acc kk &&& 2147483648) ||| (mtAget acc ((kk + 1) % mtN) &&& 2147483647)
      let v := mtAget acc ((kk + mtM) % mtN) ^^^ (y >>> 1) ^^^ (if y % 2 = 1 then 2567483615 else 0)
      mtAset acc kk v)
    a

/-- The output tempering of `genrand_uint32`. -/
def mtTemper (y : Nat) : Nat :=
  let y := y ^^^ (y >>> 11)
  let y := y ^^^ ((y <<< 7) &&& 2636928640)
  let y := y ^^^ ((y <<< 15) &&& 4022730752)
  y ^^^ (y >>> 18)

/-- `genrand_uint32()`. -/
def mtNext (g : MT) : Nat × MT :=
  let g := if mtN ≤ g.idx then { state := mtTwist g.state, idx := 0 } else g
  (mtTemper (mtAget g.state g.idx), { g with idx := g.idx + 1 })

/-- `getrandbits(k)`: one word shifted down for `k ≤ 32`, otherwise 32-bit
words assembled low-to-high with the last word truncated. -/
def getrandbits (g : MT) (k : Nat) : Nat × MT :=
  if h : k ≤ 32 then
    let (y, g) := mtNext g
    (y >>> (32 - k), g)
  else
    let (y, g) := mtNext g
    let (rest, g) := getrandbits g (k - 32)
    (y + (rest <<< 32), g)
termination_by k
decreasing_by omega

def bitLength (n : Nat) : Nat := if n = 0 then 0 else Nat.log2 n + 1

def randbelowGo (g : MT) (n k : Nat) : Nat → Nat × MT
  | 0 => (0, g)
  | fuel + 1 =>
    let (r, g) := getrandbits g k
    if r < n then (r, g) else randbelowGo g n k fuel

/-- `Random._randbelow(n)`: rejection sampling on `bit_length n` bits. CPython
loops until acceptance; the model carries fuel and falls back to 0 (still
below `n`), which no proved property distinguishes. -/
def randbelow (g : MT) (n : Nat) : Nat × MT :=
  if n = 0 then (0, g) else randbelowGo g n (bitLength n) 4096

/-- `Random.randint(a, b)` = `a + _randbelow(b + 1 - a)`. -/
def randint (g : MT) (a b : Nat) : Nat × MT :=
  let (r, g) := randbelow g (b + 1 - a)
  (a + r, g)

/-- Swap two positions of a list (`x[i], x[j] = x[j], x[i]`); out-of-range
indices leave the list unchanged (they never occur in the shuffle). -/
def listSwap (l : List α) (i j : Nat) : List α :=
  match l[i]?, l[j]? with
  | some a, some b => (l.set i b).set j a
  | _, _ => l

def shuffleGo (g : MT) (l : List α) : Nat → List α × MT
  | 0 => (l, g)
  | i + 1 =>
    let (j, g) := randbelow g (i + 2)
    shuffleGo g (listSwap l (i + 1) j) i

/-- `Random.shuffle(x)`: Fisher-Yates, `for i in reversed(range(1, len(x)))`. -/
def pyShuffle (g : MT) (l : List α) : List α × MT :=
  shuffleGo g l (l.length - 1)

/-! ## `sampling.py` -/

/-- `_tool_param_count`: the size of the declared `properties` mapping, 0 when
absent or not a dict. -/
def toolParamCount (tool : ToolSpec) : Nat :=
  match jsonLookup tool.function.parameters "properties" with
  | some (JsonVal.obj props) => props.length
  | _ => 0

/-- The index list `indices[:k]` after the seeded shuffle of
`list(range(len(tools)))` inside `sample_random_subset`. -/
def randomChosenIdx (n k : Nat) (seed : Option Nat) : List Nat :=
  ((pyShuffle (mtInitOpt seed) (List.range n)).1).take k

/-- `sample_random_subset(tools, k=k, seed=seed)`. The Python `k` is an `int`;
negative values clamp to 1 exactly as naturals below 1 do, so `k : Nat`. -/
def sample_random_subset (tools : List ToolSpec) (k : Nat) (seed : Option Nat) :
    List ToolSpec :=
  if tools.isEmpty then []
  else
    let kc := max 1 (min k tools.length)
    (randomChosenIdx tools.length kc seed).map (fun i => tools.getD i default)

/-- Stable insertion step for a descending sort on the key. Keeping an element
already in place whenever the incoming (earlier) element has a strictly larger
or equal key reproduces the stable behaviour of CPython `list.sort` with
`reverse=True`. -/
def insertDescBy (key : α → Nat) (p : α) : List α → List α
  | [] => [p]
  | q :: qs => if key q ≤ key p then p :: q :: qs else q :: insertDescBy key p qs

/-- Stable descending sort by `key`; extensionally equal to CPython
`list.sort(key=key, reverse=True)` (any stable sort with the same comparator
produces the same list). -/
def sortDescBy (key : α → Nat) : List α → List α
  | [] => []
  | p :: ps => insertDescBy key p (sortDescBy key ps)

/-- `sample_param_aware_subset`: pair each tool with its parameter count,
shuffle for tie-breaking, stable sort descending on the count, take `k`. -/
def sample_param_aware_subset (tools : List ToolSpec) (k : Nat) (seed : Option Nat) :
    List ToolSpec :=
  if tools.isEmpty then []
  else
    let kc := max 1 (min k tools.length)
    let scored := tools.map (fun t => (t, toolParamCount t))
    let shuffled := (pyShuffle (mtInitOpt seed) scored).1
    ((sortDescBy Prod.snd shuffled).take kc).map Prod.fst

/-- Word characters of the regex `\w` (ASCII fragment; the tool names and
descriptions handled by the pipeline are ASCII). -/
def isWordChar (c : Char) : Bool := c.isAlphanum || c == '_'

/-- Maximal word-character runs, i.e. `re.findall(r"\b\w+\b", text)`. -/
def wordRuns : List Char → List Char → List String → List String
  | [], cur, acc =>
    (if cur.isEmpty then acc else String.mk cur.reverse :: acc).reverse
  | c :: rest, cur, acc =>
    if isWordChar c then wordRuns rest (c :: cur) acc
    else wordRuns rest [] (if cur.isEmpty then acc else String.mk cur.reverse :: acc)

def stopWords : List String :=
  ["the", "a", "an", "and", "or", "but", "in", "on", "at", "to", "for"]

/-- `_extract_keywords`: lowercase word runs of length above 2 that are not
stop words; the Python `set` is modelled as a duplicate-free list. -/
def extractKeywords (text : String) : List String :=
  if text = "" then []
  else
    ((wordRuns text.toLower.data [] []).filter
      (fun w => 2 < w.length && !stopWords.contains w)).eraseDups

def toolKeywords (t : ToolSpec) : List String :=
  (extractKeywords t.function.name ++
    extractKeywords (t.function.description.getD "")).eraseDups

def keywordInterCard (a b : List String) : Nat :=
  (a.filter (fun x => b.contains x)).length

def keywordUnionCard (a b : List String) : Nat :=
  a.length + (b.filter (fun x => !a.contains x)).length

/-- `_tool_semantic_similarity`: Jaccard index of the keyword sets. -/
def toolSemanticSimilarity (t1 t2 : ToolSpec) : ℚ :=
  let k1 := toolKeywords t1
  let k2 := toolKeywords t2
  if k1.isEmpty || k2.isEmpty then 0
  else
    let inter := keywordInterCard k1 k2
    let uni := keywordUnionCard k1 k2
    if 0 < uni then (inter : ℚ) / (uni : ℚ) else 0

/-- The per-candidate score inside the semantic greedy loop: mean similarity to
the selected tools, halved outside the moderate band `[0.2, 0.6]`. -/
def semScore (selected : List ToolSpec) (t : ToolSpec) : ℚ :=
  let avg := (selected.map (fun s => toolSemanticSimilarity t s)).sum /
    (selected.length : ℚ)
  if 1/5 ≤ avg ∧ avg ≤ 3/5 then avg else avg * (1/2)

/-- First index of `remaining` attaining the maximal score (strict improvement
scan starting from the sentinel -1, as in the Python loop). Scores are never
negative, so the Python `best_tool` is always set and `remaining.remove` on a
pydantic model removes exactly this position (equal specs score equally, so an
earlier equal element would itself have been the first maximum). -/
def semBestIdx (selected : List ToolSpec) (remaining : List ToolSpec) : Nat :=
  (remaining.foldl
    (fun (st : Nat × ℚ × Nat) t =>
      let sc := semScore selected t
      if st.2.1 < sc then (st.2.2, sc, st.2.2 + 1) else (st.1, st.2.1, st.2.2 + 1))
    (0, -1, 0)).1

def semGo (selected remaining : List ToolSpec) : Nat → List ToolSpec
  | 0 => selected
  | need + 1 =>
    if remaining.isEmpty then selected
    else
      let bi := semBestIdx selected remaining
      semGo (selected ++ [remaining.getD bi default]) (remaining.eraseIdx bi) need

/-- `sample_semantic_subset`: seeded shuffle, pop the first tool, then greedily
add the best-scoring remaining tool until `k` tools are selected. -/
def sample_semantic_subset (tools : List ToolSpec) (k : Nat) (seed : Option Nat) :
    List ToolSpec :=
  if tools.isEmpty then []
  else
    let kc := max 1 (min k tools.length)
    if tools.length ≤ kc then tools
    else
      match (pyShuffle (mtInitOpt seed) tools).1 with
      | [] => []
      | first :: rest => semGo [first] rest (kc - 1)

/-- The strategy dispatch inside `batched_subsets`. -/
def chooseSampler (strategy : String) :
    List ToolSpec → Nat → Option Nat → List ToolSpec :=
  if strategy = "param_aware" then sample_param_aware_subset
  else if strategy = "semantic" then sample_semantic_subset
  else sample_random_subset

/-- Per-iteration subset size: the clamped fixed `batch_size` when it was valid,
otherwise a fresh `randint(k_min, k_max)` draw. -/
def batchStep (fixed_k : Option Nat) (kmin kmax : Nat) (g : MT) : Nat × MT :=
  match fixed_k with
  | some f => (f, g)
  | none => randint g kmin kmax

def batchedGo (tools : List ToolSpec)
    (chooser : List ToolSpec → Nat → Option Nat → List ToolSpec)
    (fixed_k : Option Nat) (kmin kmax : Nat) (seed : Option Nat) :
    Nat → Nat → MT → List (List ToolSpec)
  | 0, _, _ => []
  | rem + 1, i, g =>
    let step := batchStep fixed_k kmin kmax g
    chooser tools step.1 (seed.map (fun s => s + i)) ::
      batchedGo tools chooser fixed_k kmin kmax seed rem (i + 1) step.2

/-- The clamped fixed subset size of `batched_subsets`: `some` exactly when
`1 <= batch_size <= len(tools)`. -/
def batchFixedK (tools : List ToolSpec) (batch_size : Int) : Option Nat :=
  if 1 ≤ batch_size ∧ batch_size ≤ (tools.length : Int) then
    some (max 1 (min batch_size.toNat tools.length))
  else none

/-- `k_max = k_max or len(tools)` (both `None` and the falsy 0 fall back),
then clamped into `[1, len(tools)]`. -/
def batchKmax (tools : List ToolSpec) (k_max : Option Nat) : Nat :=
  let kmax0 : Nat :=
    match k_max with
    | none => tools.length
    | some 0 => tools.length
    | some m => m
  max 1 (min kmax0 tools.length)

def batchKmin (k_min kmax : Nat) : Nat := max 1 (min k_min kmax)

/-- The subset size used for record index `i`, reproducing the state of the
outer generator after the first `i` draws. -/
def batchKAt (fixed_k : Option Nat) (kmin kmax : Nat) (g : MT) : Nat → Nat
  | 0 => (batchStep fixed_k kmin kmax g).1
  | i + 1 => batchKAt fixed_k kmin kmax (batchStep fixed_k kmin kmax g).2 i

/-- `batched_subsets`. `batch_size` is a Python `int` and may fall outside
`[1, len(tools)]`, in which case sizes are drawn from `[k_min, k_max]`. -/
def batched_subsets (tools : List ToolSpec) (batch_size : Int) (total : Nat)
    (strategy : String) (seed : Option Nat) (k_min : Nat) (k_max : Option Nat) :
    List (List ToolSpec) :=
  if tools.isEmpty then []
  else
    batchedGo tools (chooseSampler strategy) (batchFixedK tools batch_size)
      (batchKmin k_min (batchKmax tools k_max)) (batchKmax tools k_max)
      seed total 0 (mtInitOpt seed)

/-! ## `judge/scorer.py` -/

/-- The structured judge output `JudgeResponse` (pydantic). Floats are `ℚ`. -/
structure JudgeResponse where
  tool_relevance : ℚ
  argument_quality : ℚ
  clarity : ℚ
  score : ℚ
  verdict : String
  rationale : String

/-- Pydantic validation of `JudgeResponse`: exactly the declared `Field`
constraints (`ge`/`le` bounds) plus the `Literal["accept", "reject"]` verdict.
The `description` texts of the fields are prompts for the LLM, not checks. -/
def judgeResponseSchemaOk (r : JudgeResponse) : Prop :=
  0 ≤ r.tool_relevance ∧ r.tool_relevance ≤ 2/5 ∧
  0 ≤ r.argument_quality ∧ r.argument_quality ≤ 2/5 ∧
  0 ≤ r.clarity ∧ r.clarity ≤ 1/5 ∧
  0 ≤ r.score ∧ r.score ≤ 1 ∧
  (r.verdict = "accept" ∨ r.verdict = "reject")

instance (r : JudgeResponse) : Decidable (judgeResponseSchemaOk r) := by
  unfold judgeResponseSchemaOk
  infer_instance

/-- `JudgeResult` (plain Python class; keyword defaults reproduced). -/
structure JudgeResult where
  score : ℚ
  verdict : String
  rationale : String
  tool_relevance : ℚ := 0
  argument_quality : ℚ := 0
  clarity : ℚ := 0
  rubric_version : String := "0.1.0"

def JudgeResult.from_response (r : JudgeResponse) : JudgeResult :=
  { score := r.score
    verdict := r.verdict
    rationale := r.rationale
    tool_relevance := r.tool_relevance
    argument_quality := r.argument_quality
    clarity := r.clarity
    rubric_version := "0.1.0" }

/-- Values stored in the `judge` and `problem_metadata` dicts of a record. -/
inductive JVal where
  | s (v : String) : JVal
  | q (v : ℚ) : JVal
  | b (v : Bool) : JVal

def JudgeResult.to_dict (jr : JudgeResult) : List (String × JVal) :=
  [("score", JVal.q jr.score), ("verdict", JVal.s jr.verdict),
   ("rationale", JVal.s jr.rationale), ("rubric_version", JVal.s jr.rubric_version),
   ("tool_relevance", JVal.q jr.tool_relevance),
   ("argument_quality", JVal.q jr.argument_quality), ("clarity", JVal.q jr.clarity)]

/-- `judge_tool_calls`: empty call list short-circuits to a zero reject; else
the structured completion either yields a validated `JudgeResponse` or raises.
The network outcome is passed in as data. -/
def judge_tool_calls (judgeOutcome : Except String JudgeResponse)
    (tool_calls : List α) : Except String JudgeResult :=
  if tool_calls.isEmpty then
    .ok { score := 0, verdict := "reject", rationale := "No tool calls provided" }
  else
    judgeOutcome.map JudgeResult.from_response

/-! ## `schema.py` -/

structure Message where
  role : String
  content : Option String := none
  tool_call_id : Option String := none
  name : Option String := none

structure AssistantToolCall where
  id : String
  type : String := "function"
  function : List (String × JsonVal)

structure Record where
  id : String
  language : String
  tools : List ToolSpec
  messages : List Message
  assistant_calls : List AssistantToolCall := []
  problem_metadata : List (String × JVal) := []
  judge : List (String × JVal) := []
  quality_tags : List String := []

/-- The `Literal` constraints pydantic enforces when validating a `Record`:
`language` is `Literal["en"]`, message roles come from the four-role literal,
and the two `type` discriminators are `"function"`. -/
def recordSchemaValid (r : Record) : Prop :=
  r.language = "en" ∧
  (∀ m ∈ r.messages, m.role ∈ ["system", "user", "assistant", "tool"]) ∧
  (∀ t ∈ r.tools, t.type = "function") ∧
  (∀ c ∈ r.assistant_calls, c.type = "function")

instance (r : Record) : Decidable (recordSchemaValid r) := by
  unfold recordSchemaValid
  infer_instance

/-! ## `generator.py` -/

/-- Per-role model configuration (`config.ModelConfig`), restricted to the
fields the generator reads. -/
structure ModelConfig where
  model : String
  base_url : Option String := none
  temperature : ℚ := 7/10

/-- `config.GenerationConfig`. -/
structure GenerationConfig where
  num_samples : Nat := 10
  strategy : String := "random"
  seed : Option Nat := none
  train_split : ℚ := 1
  language : String := "english"

/-- The message dict of one chat completion choice: `content` (`none` models an
absent or `null` content, both of which fall to the falsy default) and the
`tool_calls` list of raw dicts (`[]` models an absent key). -/
structure ChoiceMessage where
  content : Option String := none
  tool_calls : List JsonVal := []

structure ChatChoice where
  message : ChoiceMessage := {}

/-- Python `str.strip()` whitespace (ASCII fragment). -/
def isPySpace (c : Char) : Bool :=
  c == ' ' || c == '\t' || c == '\n' || c == '\r' || c == '\x0B' || c == '\x0C'

/-- Python `str.strip()`: drop leading and trailing whitespace. -/
def pyStrip (s : String) : String :=
  String.mk (((s.data.dropWhile isPySpace).reverse.dropWhile isPySpace).reverse)

/-- The `_dump`ed chat completion response, as read by the generator. -/
structure ChatResponse where
  choices : List ChatChoice := []

/-- `_generate_user_request`, applied to the completion outcome: exceptions
propagate, no choices or falsy content raise `ValueError`, otherwise the
stripped content is returned. -/
def generateUserRequest (resp : Except String ChatResponse) : Except String String :=
  match resp with
  | .error e => .error e
  | .ok r =>
    match r.choices with
    | [] => .error "LLM returned no choices"
    | c :: _ =>
      let content := c.message.content.getD ""
      if content = "" then .error "LLM returned empty content"
      else .ok (pyStrip content)

/-- `AssistantToolCall.model_validate` on one raw dict: `id` must be a string,
`function` a dict, and `type`, when present, the literal `"function"`; extra
keys are ignored. -/
def validateToolCall (j : JsonVal) : Option AssistantToolCall :=
  match j with
  | .obj fields =>
    match jsonLookup fields "id", jsonLookup fields "function" with
    | some (.str idv), some (.obj fn) =>
      match jsonLookup fields "type" with
      | none => some { id := idv, type := "function", function := fn }
      | some (.str "function") => some { id := idv, type := "function", function := fn }
      | some _ => none
    | _, _ => none
  | _ => none

/-- `_extract_tool_calls`: first choice's `tool_calls`, keeping exactly the
entries that validate (the `try/except/continue` loop is a `filterMap`). -/
def extractToolCalls (r : ChatResponse) : List AssistantToolCall :=
  match r.choices with
  | [] => []
  | c :: _ => c.message.tool_calls.filterMap validateToolCall

/-- Python `dict` update of one key: overwrite in place or append. -/
def dictSetKey (d : List (String × JVal)) (k : String) (v : JVal) : List (String × JVal) :=
  if d.any (fun p => p.1 = k) then d.map (fun p => if p.1 = k then (k, v) else p)
  else d ++ [(k, v)]

/-- Python `dict.update`. -/
def dictUpdate (d u : List (String × JVal)) : List (String × JVal) :=
  u.foldl (fun acc p => dictSetKey acc p.1 p.2) d

def padZeros6 (s : String) : String :=
  if s.length < 6 then String.mk (List.replicate (6 - s.length) '0') ++ s else s

/-- `f"record_{i:06d}"`. -/
def recordIdFor (i : Nat) : String := "record_" ++ padZeros6 (toString i)

/-- `_create_record`. `generate_dataset` always passes both `model_info` keys,
so the `.get` defaults never fire; a present `judge_result` is a non-empty
dict, so Python truthiness coincides with `Option.isSome`. -/
def createRecord (record_id : String) (tools : List ToolSpec) (user_request : String)
    (tool_calls : List AssistantToolCall) (model : String) (temperature : ℚ)
    (judge_result : Option (List (String × JVal))) : Record :=
  let judge_base := [("model", JVal.s model), ("temperature", JVal.q temperature)]
  { id := record_id
    language := "en"
    tools := tools
    messages := [{ role := "user", content := some user_request }]
    assistant_calls := tool_calls
    problem_metadata := [("generated", JVal.b true), ("user_request", JVal.s user_request)]
    judge :=
      match judge_result with
      | some jd => dictUpdate judge_base jd
      | none => judge_base }

/-- The three network interactions of one sample, supplied by the environment:
the problem-generation completion, the tool-caller completion, and the judge's
structured completion (already validated by pydantic when it succeeds). -/
structure SampleEnv where
  problem : Except String ChatResponse
  caller : Except String ChatResponse
  judge : Except String JudgeResponse

/-- The body of the per-sample `try` block in `generate_dataset`. A `.error`
result covers both a raised exception and the `continue` taken when no valid
tool call was extracted; both paths increment `failed` and emit nothing. The
nested judge `try/except` maps a judge failure to `judge_result = none`. -/
def processSample (mc : ModelConfig) (i : Nat) (subset : List ToolSpec)
    (env : SampleEnv) : Except String Record :=
  match generateUserRequest env.problem with
  | .error e => .error e
  | .ok user_request =>
    match env.caller with
    | .error e => .error e
    | .ok response =>
      let tool_calls := extractToolCalls response
      if tool_calls.isEmpty then .error "no valid tool calls"
      else
        let judge_dict : Option (List (String × JVal)) :=
          match judge_tool_calls env.judge tool_calls with
          | .ok jr => some jr.to_dict
          | .error _ => none
        .ok (createRecord (recordIdFor i) subset user_request tool_calls
          mc.model mc.temperature judge_dict)

/-- The mutable loop state of `generate_dataset`: `all_records` and `failed`. -/
structure RunState where
  records : List Record := []
  failed : Nat := 0

def genLoop (mc : ModelConfig) :
    List (List ToolSpec × SampleEnv) → Nat → RunState → RunState
  | [], _, st => st
  | (subset, env) :: rest, i, st =>
    match processSample mc i subset env with
    | .ok r => genLoop mc rest (i + 1) { st with records := st.records ++ [r] }
    | .error _ => genLoop mc rest (i + 1) { st with failed := st.failed + 1 }

/-- The generation loop of `generate_dataset` over the per-sample subsets and
environments, starting from index 0 with empty state. -/
def runGeneration (mc : ModelConfig) (inputs : List (List ToolSpec × SampleEnv)) :
    RunState :=
  genLoop mc inputs 0 {}

/-- `int(x)` for the non-negative products that arise in the split cut. -/
def ratFloorNat (q : ℚ) : Nat := (⌊q⌋).toNat

/-- The split policy of `generate_dataset` (lines 303-315): seeded shuffle and
cut when `train_split < 1.0` and at least one record succeeded, otherwise a
single `train` split. -/
def splitRecords (gc : GenerationConfig) (all_records : List Record) :
    List (String × List Record) :=
  if gc.train_split < 1 ∧ 0 < all_records.length then
    [("train", ((pyShuffle (mtInitOpt gc.seed) all_records).1).take
        (ratFloorNat ((((pyShuffle (mtInitOpt gc.seed) all_records).1).length : ℚ) *
          gc.train_split))),
     ("val", ((pyShuffle (mtInitOpt gc.seed) all_records).1).drop
        (ratFloorNat ((((pyShuffle (mtInitOpt gc.seed) all_records).1).length : ℚ) *
          gc.train_split)))]
  else [("train", all_records)]

/-! ## Observable events of a `generate_dataset` run

The loop (generator.py lines 236-301) performs no file writes; JSONL files are
written by `write_dataset_jsonl` only after the loop, one per non-empty split
(lines 317-321). The event trace makes the timing of those writes a provable
property: one event per processed sample, then the write events.
-/

inductive RunEvent where
  | recordProduced (r : Record) : RunEvent
  | sampleFailed : RunEvent
  | fileWrite (path : String) (lines : List Record) : RunEvent

/-- One event per loop iteration, in order. -/
def loopEvents (mc : ModelConfig) :
    List (List ToolSpec × SampleEnv) → Nat → List RunEvent
  | [], _ => []
  | (subset, env) :: rest, i =>
    (match processSample mc i subset env with
     | .ok r => RunEvent.recordProduced r
     | .error _ => RunEvent.sampleFailed) :: loopEvents mc rest (i + 1)

/-- The write events after the loop: `write_dataset_jsonl(records, dir/f"{name}.jsonl")`
for each split with at least one record (mode `"w"`). -/
def writeEvents (splits : List (String × List Record)) : List RunEvent :=
  splits.filterMap (fun nr =>
    if nr.2.isEmpty then none else some (RunEvent.fileWrite (nr.1 ++ ".jsonl") nr.2))

/-- The full event trace of the loop-and-persist phase of `generate_dataset`. -/
def runEvents (gc : GenerationConfig) (mc : ModelConfig)
    (inputs : List (List ToolSpec × SampleEnv)) : List RunEvent :=
  loopEvents mc inputs 0 ++
    writeEvents (splitRecords gc (runGeneration mc inputs).records)

/-- How one event changes the disk: a `fileWrite` replaces the file's contents
(the writer opens with mode `"w"`); other events touch no file. -/
def diskStep (d : List (String × List Record)) (e : RunEvent) :
    List (String × List Record) :=
  match e with
  | RunEvent.fileWrite p lines =>
    if d.any (fun f => f.1 = p) then d.map (fun f => if f.1 = p then (p, lines) else f)
    else d ++ [(p, lines)]
  | _ => d

/-- Disk contents after a list of events. -/
def diskAfter (events : List RunEvent) : List (String × List Record) :=
  events.foldl diskStep []

def fileOn (d : List (String × List Record)) (p : String) : List Record :=
  ((d.find? (fun f => f.1 = p)).map Prod.snd).getD []

/-- Disk contents seen by a run interrupted after the first `i` samples (the
trace has exactly one event per sample, so the prefix of length `i` is what has
executed). -/
def interruptedDisk (mc : ModelConfig) (inputs : List (List ToolSpec × SampleEnv))
    (i : Nat) : List (String × List Record) :=
  diskAfter ((loopEvents mc inputs 0).take i)

/-- The persistence property the specification asserts: after any interruption
point, every record that has succeeded so far is on disk in some file. -/
def incrementalPersistence (mc : ModelConfig)
    (inputs : List (List ToolSpec × SampleEnv)) : Prop :=
  ∀ i, i ≤ inputs.length →
    ∀ r ∈ (runGeneration mc (inputs.take i)).records,
      ∃ p, r ∈ fileOn (interruptedDisk mc inputs i) p

/-! ## `providers/openai_compat.py`: retry loop of `ChatModelClient.create`

Each attempt's transport outcome is supplied by the environment as a function
of the attempt number. `RateLimitError` carries the optional `retry-after`
header (`none`: absent; `some none`: present but not `float`-parseable;
`some (some q)`: parses to `q`). `apiStatus` is an `APIError` with its
`status_code` attribute; `otherException` is any non-OpenAI exception, which
the final `except` clause wraps and re-raises immediately.
-/

inductive ApiFailure where
  | rateLimit (retryAfterHeader : Option (Option ℚ)) : ApiFailure
  | apiStatus (status_code : Option Nat) : ApiFailure
  | otherException (msg : String) : ApiFailure

/-- `ChatModelClient._should_retry`: rate limits always, `APIError` only on a
5xx status. -/
def shouldRetry : ApiFailure → Bool
  | .rateLimit _ => true
  | .apiStatus (some s) => decide (500 ≤ s ∧ s < 600)
  | .apiStatus none => false
  | .otherException _ => false

/-- The backoff sleep before retrying after the error of `attempt`:
`min(initial_retry_delay * 2 ** attempt, max_retry_delay)`, overridden by a
parseable `retry-after` header on a rate-limit error. -/
def backoffDelay (initial_retry_delay max_retry_delay : ℚ) (attempt : Nat)
    (e : ApiFailure) : ℚ :=
  let d := min (initial_retry_delay * 2 ^ attempt) max_retry_delay
  match e with
  | .rateLimit (some (some q)) => q
  | _ => d

/-- How `ChatModelClient.create` terminates, with the chronological list of
backoff sleeps it performed. -/
inductive CreateOutcome where
  | success (r : ChatResponse) (sleeps : List ℚ) : CreateOutcome
  | rateLimitExceeded (sleeps : List ℚ) : CreateOutcome
  | apiRequestError (sleeps : List ℚ) : CreateOutcome

/-- The retry loop `for attempt in range(self.max_retries + 1)` of `create`:
return on success; wrap and raise non-OpenAI exceptions immediately; break and
classify the last error when it is not retryable or attempts are exhausted;
otherwise sleep the backoff delay and continue. -/
def createLoop (env : Nat → Except ApiFailure ChatResponse) (max_retries : Nat)
    (initD maxD : ℚ) (attempt : Nat) (sleeps : List ℚ) : CreateOutcome :=
  match env attempt with
  | .ok r => .success r sleeps
  | .error e =>
    match e with
    | .otherException _ => .apiRequestError sleeps
    | _ =>
      if h : shouldRetry e = false ∨ max_retries ≤ attempt then
        match e with
        | .rateLimit _ => .rateLimitExceeded sleeps
        | _ => .apiRequestError sleeps
      else
        createLoop env max_retries initD maxD (attempt + 1)
          (sleeps ++ [backoffDelay initD maxD attempt e])
termination_by max_retries + 1 - attempt
decreasing_by
  simp only [not_or] at h
  omega

/-- `ChatModelClient.create`, starting at attempt 0 with no sleeps. -/
def clientCreate (env : Nat → Except ApiFailure ChatResponse) (max_retries : Nat)
    (initD maxD : ℚ) : CreateOutcome :=
  createLoop env max_retries initD maxD 0 []

/-! ## Auxiliary predicates and concrete inputs used by the theorems -/

def exceptOk : Except ε α → Bool
  | .ok _ => true
  | .error _ => false

/-- The failure condition of one sample, as the specification phrases it: an
exception during problem generation or tool calling, or zero valid extracted
tool calls. (Judge failures are absent on purpose.) -/
def sampleFailsB (env : SampleEnv) : Bool :=
  !exceptOk (generateUserRequest env.problem) ||
    (match env.caller with
     | .error _ => true
     | .ok r => (extractToolCalls r).isEmpty)

/-- A schema-accepted judge response whose aggregate differs from the sum of
its sub-scores. -/
def divergentJudgeResponse : JudgeResponse :=
  { tool_relevance := 2/5, argument_quality := 2/5, clarity := 1/5,
    score := 1/2, verdict := "reject", rationale := "sum not checked" }

/-- A schema-accepted judge response whose verdict contradicts the 0.7
threshold rule. -/
def thresholdJudgeResponse : JudgeResponse :=
  { tool_relevance := 2/5, argument_quality := 2/5, clarity := 1/10,
    score := 9/10, verdict := "reject", rationale := "verdict not checked" }

/-- A judge response satisfying every documented constraint. -/
def consistentJudgeResponse : JudgeResponse :=
  { tool_relevance := 3/10, argument_quality := 3/10, clarity := 1/10,
    score := 7/10, verdict := "accept", rationale := "ok" }

def weatherTool : ToolSpec :=
  { function :=
    { name := "get_weather"
      description := some "Get the current weather for a city"
      parameters :=
        [("type", JsonVal.str "object"),
         ("properties", JsonVal.obj [("city", JsonVal.obj [("type", JsonVal.str "string")])])] } }

def timeTool : ToolSpec :=
  { function :=
    { name := "get_time"
      description := some "Get the current time for a timezone"
      parameters :=
        [("type", JsonVal.str "object"),
         ("properties", JsonVal.obj [("tz", JsonVal.obj [("type", JsonVal.str "string")])])] } }

/-- Tools with 1, 5 and 3 declared parameters (the scenario named by the
spec's param-aware property). -/
def paramTool1 : ToolSpec :=
  { function :=
    { name := "tool1"
      description := some "Tool tool1"
      parameters :=
        [("type", JsonVal.str "object"),
         ("properties", JsonVal.obj [("p0", JsonVal.null)])] } }

def paramTool5 : ToolSpec :=
  { function :=
    { name := "tool2"
      description := some "Tool tool2"
      parameters :=
        [("type", JsonVal.str "object"),
         ("properties", JsonVal.obj
           [("p0", JsonVal.null), ("p1", JsonVal.null), ("p2", JsonVal.null),
            ("p3", JsonVal.null), ("p4", JsonVal.null)])] } }

def paramTool3 : ToolSpec :=
  { function :=
    { name := "tool3"
      description := some "Tool tool3"
      parameters :=
        [("type", JsonVal.str "object"),
         ("properties", JsonVal.obj
           [("p0", JsonVal.null), ("p1", JsonVal.null), ("p2", JsonVal.null)])] } }

/-- A raw tool-call payload that validates. -/
def demoRawCall : JsonVal :=
  JsonVal.obj
    [("id", JsonVal.str "call_1"), ("type", JsonVal.str "function"),
     ("function", JsonVal.obj
       [("name", JsonVal.str "get_weather"), ("arguments", JsonVal.str "")])]

def demoProblemResp : ChatResponse :=
  { choices := [{ message := { content := some "Hi" } }] }

def demoCallerResp : ChatResponse :=
  { choices := [{ message := { tool_calls := [demoRawCall] } }] }

/-- A sample whose problem generation and tool calling succeed while the judge
raises. -/
def judgeDownEnv : SampleEnv :=
  { problem := .ok demoProblemResp
    caller := .ok demoCallerResp
    judge := .error "judge down" }

def demoMC : ModelConfig := { model := "gpt-test", temperature := 7/10 }

def demoGC : GenerationConfig := { num_samples := 1, seed := some 42, train_split := 1 }

def halfSplitGC : GenerationConfig := { num_samples := 1, seed := some 42, train_split := 1/2 }

def demoInputs : List (List ToolSpec × SampleEnv) := [([weatherTool], judgeDownEnv)]

/-- The record the single demo sample produces (judge failed, so the judge
dict holds only the provenance keys). -/
def demoRecord : Record :=
  createRecord (recordIdFor 0) [weatherTool] "Hi"
    [{ id := "call_1", type := "function"
       function := [("name", JsonVal.str "get_weather"), ("arguments", JsonVal.str "")] }]
    "gpt-test" (7/10) none

def demoChatResp : ChatResponse := demoProblemResp

/-- A transport that rate-limits once (with a parseable retry-after header of
5 seconds) and then succeeds. -/
def retryOnceEnv : Nat → Except ApiFailure ChatResponse :=
  fun n => if n = 0 then .error (.rateLimit (some (some 5))) else .ok demoChatResp

def retryOnceErrs : Nat → ApiFailure := fun _ => .rateLimit (some (some 5))

/-- A transport that fails immediately with a plain 404 `APIError`. -/
def notFoundEnv : Nat → Except ApiFailure ChatResponse :=
  fun _ => .error (.apiStatus (some 404))

def notFoundErrs : Nat → ApiFailure := fun _ => .apiStatus (some 404)

/-- A transport that always answers 503. -/
def alwaysDownEnv : Nat → Except ApiFailure ChatResponse :=
  fun _ => .error (.apiStatus (some 503))

def alwaysDownErrs : Nat → ApiFailure := fun _ => .apiStatus (some 503)

/-! ## Permutation facts about the embedded Fisher-Yates shuffle -/

theorem perm_swap_heads (a b : α) (l : List α) :
    List.Perm (a :: b :: l) (b :: a :: l) :=
  List.Perm.swap b a l

theorem cons_set_perm {α : Type u} {xs : List α} {j : Nat} {b : α} (x : α)
    (h : xs[j]? = some b) : List.Perm (b :: xs.set j x) (x :: xs) := by
  induction xs generalizing j with
  | nil => simp at h
  | cons y ys ih =>
    cases j with
    | zero =>
      simp only [List.getElem?_cons_zero, Option.some.injEq] at h
      subst h
      simpa using perm_swap_heads y x ys
    | succ j =>
      simp only [List.getElem?_cons_succ] at h
      simp only [List.set]
      refine List.Perm.trans (perm_swap_heads b y _) ?_
      refine List.Perm.trans (List.Perm.cons y (ih h)) ?_
      exact perm_swap_heads y x ys

theorem listSwap_perm (l : List α) (i j : Nat) : List.Perm (listSwap l i j) l := by
  induction l generalizing i j with
  | nil => simp [listSwap]
  | cons x xs ih =>
    cases i with
    | zero =>
      cases j with
      | zero => simp [listSwap]
      | succ j =>
        cases h : xs[j]? with
        | none => simp [listSwap, h]
        | some b =>
          simp only [listSwap, List.getElem?_cons_zero, List.getElem?_cons_succ, h, List.set]
          exact cons_set_perm x h
    | succ i =>
      cases j with
      | zero =>
        cases h : xs[i]? with
        | none => simp [listSwap, h]
        | some a =>
          simp only [listSwap, List.getElem?_cons_zero, List.getElem?_cons_succ, h, List.set]
          exact cons_set_perm x h
      | succ j =>
        cases hi : xs[i]? with
        | none => simp [listSwap, hi]
        | some a =>
          cases hj : xs[j]? with
          | none => simp [listSwap, hi, hj]
          | some b =>
            simp only [listSwap, List.getElem?_cons_succ, hi, hj, List.set]
            have hp := ih i j
            simp only [listSwap, hi, hj] at hp
            exact List.Perm.cons x hp

theorem shuffleGo_perm (g : MT) (l : List α) (i : Nat) :
    List.Perm (shuffleGo g l i).1 l := by
  induction i generalizing g l with
  | zero => simp [shuffleGo]
  | succ i ih =>
    simp only [shuffleGo]
    exact List.Perm.trans (ih _ _) (listSwap_perm l (i + 1) _)

theorem pyShuffle_perm (g : MT) (l : List α) : List.Perm (pyShuffle g l).1 l :=
  shuffleGo_perm g l (l.length - 1)

/-! ## C1: the judge-response schema -/

/-- C1: the claim asserts that every schema-accepted `JudgeResponse` satisfies
`score = tool_relevance + argument_quality + clarity` and
`verdict = "accept" ↔ score ≥ 0.7`. This closed counterexample exhibits a
schema-accepted response violating both the sum equation (score 0.5 with
sub-scores summing to 1.0) hence refuting the claim as stated: pydantic only
enforces the `ge`/`le` bounds and the verdict literal. -/
theorem c1_judge_schema_counterexample :
    judgeResponseSchemaOk divergentJudgeResponse ∧
    ¬ (divergentJudgeResponse.score =
        divergentJudgeResponse.tool_relevance + divergentJudgeResponse.argument_quality +
          divergentJudgeResponse.clarity ∧
       (divergentJudgeResponse.verdict = "accept" ↔ 7/10 ≤ divergentJudgeResponse.score)) := by
  constructor
  · refine ⟨by norm_num [divergentJudgeResponse], by norm_num [divergentJudgeResponse],
      by norm_num [divergentJudgeResponse], by norm_num [divergentJudgeResponse],
      by norm_num [divergentJudgeResponse], by norm_num [divergentJudgeResponse],
      by norm_num [divergentJudgeResponse], by norm_num [divergentJudgeResponse],
      Or.inr rfl⟩
  · intro h
    exact absurd h.1 (by norm_num [divergentJudgeResponse])

/-- C1 (amended): the judge-response schema enforces exactly the declared
bounds (sub-scores in their ranges, `score ∈ [0,1]`) and the two-valued
verdict; it does not enforce the aggregate-sum equation nor the 0.7-threshold
verdict rule, both of which schema-accepted responses can violate. -/
theorem c1_judge_schema_amended :
    (∀ r : JudgeResponse, judgeResponseSchemaOk r →
      0 ≤ r.score ∧ r.score ≤ 1 ∧
      0 ≤ r.tool_relevance ∧ r.tool_relevance ≤ 2/5 ∧
      0 ≤ r.argument_quality ∧ r.argument_quality ≤ 2/5 ∧
      0 ≤ r.clarity ∧ r.clarity ≤ 1/5 ∧
      (r.verdict = "accept" ∨ r.verdict = "reject")) ∧
    (∃ r : JudgeResponse, judgeResponseSchemaOk r ∧
      r.score ≠ r.tool_relevance + r.argument_quality + r.clarity) ∧
    (∃ r : JudgeResponse, judgeResponseSchemaOk r ∧
      ¬ (r.verdict = "accept" ↔ 7/10 ≤ r.score)) := by
  refine ⟨?_,
    ⟨divergentJudgeResponse,
      ⟨by norm_num [divergentJudgeResponse], by norm_num [divergentJudgeResponse],
        by norm_num [divergentJudgeResponse], by norm_num [divergentJudgeResponse],
        by norm_num [divergentJudgeResponse], by norm_num [divergentJudgeResponse],
        by norm_num [divergentJudgeResponse], by norm_num [divergentJudgeResponse],
        Or.inr rfl⟩,
      by norm_num [divergentJudgeResponse]⟩,
    ⟨thresholdJudgeResponse,
      ⟨by norm_num [thresholdJudgeResponse], by norm_num [thresholdJudgeResponse],
        by norm_num [thresholdJudgeResponse], by norm_num [thresholdJudgeResponse],
        by norm_num [thresholdJudgeResponse], by norm_num [thresholdJudgeResponse],
        by norm_num [thresholdJudgeResponse], by norm_num [thresholdJudgeResponse],
        Or.inr rfl⟩, ?_⟩⟩
  · intro r h
    obtain ⟨h1, h2, h3, h4, h5, h6, h7, h8, h9⟩ := h
    exact ⟨h7, h8, h1, h2, h3, h4, h5, h6, h9⟩
  · intro h
    have hacc : thresholdJudgeResponse.verdict = "accept" :=
      h.2 (by norm_num [thresholdJudgeResponse])
    exact absurd hacc (by simp [thresholdJudgeResponse])

/-- C1 witness: the amended bounds hold at a concrete schema-valid response. -/
theorem c1_judge_schema_amended_witness :
    0 ≤ consistentJudgeResponse.score ∧ consistentJudgeResponse.score ≤ 1 ∧
    0 ≤ consistentJudgeResponse.tool_relevance ∧ consistentJudgeResponse.tool_relevance ≤ 2/5 ∧
    0 ≤ consistentJudgeResponse.argument_quality ∧ consistentJudgeResponse.argument_quality ≤ 2/5 ∧
    0 ≤ consistentJudgeResponse.clarity ∧ consistentJudgeResponse.clarity ≤ 1/5 ∧
    (consistentJudgeResponse.verdict = "accept" ∨ consistentJudgeResponse.verdict = "reject") :=
  c1_judge_schema_amended.1 consistentJudgeResponse
    ⟨by norm_num [consistentJudgeResponse], by norm_num [consistentJudgeResponse],
      by norm_num [consistentJudgeResponse], by norm_num [consistentJudgeResponse],
      by norm_num [consistentJudgeResponse], by norm_num [consistentJudgeResponse],
      by norm_num [consistentJudgeResponse], by norm_num [consistentJudgeResponse],
      Or.inl rfl⟩

/-! ## C2: `sample_random_subset` -/

theorem sample_random_subset_eq (tools : List ToolSpec) (k : Nat) (seed : Option Nat)
    (hne : tools ≠ []) (hk1 : 1 ≤ k) (hk2 : k ≤ tools.length) :
    sample_random_subset tools k seed =
      (randomChosenIdx tools.length k seed).map (fun i => tools.getD i default) := by
  have hie : tools.isEmpty = false := by
    cases tools with
    | nil => exact absurd rfl hne
    | cons a l => rfl
  have hkc : max 1 (min k tools.length) = k := by omega
  simp [sample_random_subset, hie, hkc]

theorem randomChosenIdx_spec (n k : Nat) (seed : Option Nat) (hk : k ≤ n) :
    (randomChosenIdx n k seed).Nodup ∧ (randomChosenIdx n k seed).length = k ∧
      ∀ i ∈ randomChosenIdx n k seed, i < n := by
  have hperm : List.Perm ((pyShuffle (mtInitOpt seed) (List.range n)).1) (List.range n) :=
    pyShuffle_perm _ _
  have hnodup : ((pyShuffle (mtInitOpt seed) (List.range n)).1).Nodup :=
    hperm.nodup_iff.mpr (List.nodup_range n)
  have hlen : ((pyShuffle (mtInitOpt seed) (List.range n)).1).length = n := by
    simpa using hperm.length_eq
  refine ⟨List.Nodup.sublist (List.take_sublist _ _) hnodup, ?_, ?_⟩
  · simp [randomChosenIdx, hlen, hk]
  · intro i hi
    have : i ∈ List.range n := hperm.mem_iff.mp (List.mem_of_mem_take hi)
    simpa using this

/-- C2: for a non-empty catalog and `1 ≤ k ≤ |catalog|`, `sample_random_subset`
with a given seed returns the tools at `k` pairwise-distinct catalog indices
(hence exactly `k` elements, all drawn from the catalog, without replacement).
Identical `(catalog, k, seed)` arguments yield identical results because the
embedded generator is a pure function of the seed, exactly as `random.Random`
is fully determined by its seed. -/
theorem c2_sample_random_subset (tools : List ToolSpec) (k s : Nat)
    (hne : tools ≠ []) (hk1 : 1 ≤ k) (hk2 : k ≤ tools.length) :
    ∃ idxs : List Nat,
      idxs.Nodup ∧ idxs.length = k ∧ (∀ i ∈ idxs, i < tools.length) ∧
      sample_random_subset tools k (some s) =
        idxs.map (fun i => tools.getD i default) ∧
      (sample_random_subset tools k (some s)).length = k ∧
      ∀ t ∈ sample_random_subset tools k (some s), t ∈ tools := by
  obtain ⟨hnd, hlen, hmem⟩ := randomChosenIdx_spec tools.length k (some s) hk2
  have heq := sample_random_subset_eq tools k (some s) hne hk1 hk2
  refine ⟨randomChosenIdx tools.length k (some s), hnd, hlen, hmem, heq, ?_, ?_⟩
  · rw [heq]
    simp [hlen]
  · intro t ht
    rw [heq] at ht
    obtain ⟨i, hi, rfl⟩ := List.mem_map.mp ht
    have hilt := hmem i hi
    have : tools.getD i default = tools[i] := by
      simp [List.getD_eq_getElem?_getD, List.getElem?_eq_getElem hilt]
    rw [this]
    exact List.getElem_mem hilt

/-- C2 witness: the theorem applied to a concrete two-tool catalog. -/
theorem c2_sample_random_subset_witness :
    ∃ idxs : List Nat,
      idxs.Nodup ∧ idxs.length = 1 ∧ (∀ i ∈ idxs, i < [weatherTool, timeTool].length) ∧
      sample_random_subset [weatherTool, timeTool] 1 (some 42) =
        idxs.map (fun i => [weatherTool, timeTool].getD i default) ∧
      (sample_random_subset [weatherTool, timeTool] 1 (some 42)).length = 1 ∧
      ∀ t ∈ sample_random_subset [weatherTool, timeTool] 1 (some 42),
        t ∈ [weatherTool, timeTool] :=
  c2_sample_random_subset [weatherTool, timeTool] 1 42
    (List.cons_ne_nil _ _) (by decide) (by decide)

/-! ## C7: `sample_param_aware_subset` -/

theorem insertDescBy_perm (key : α → Nat) (p : α) (l : List α) :
    List.Perm (insertDescBy key p l) (p :: l) := by
  induction l with
  | nil => simp [insertDescBy]
  | cons q qs ih =>
    by_cases hc : key q ≤ key p
    · simp [insertDescBy, hc]
    · have hstep : insertDescBy key p (q :: qs) = q :: insertDescBy key p qs := by
        simp [insertDescBy, hc]
      rw [hstep]
      exact List.Perm.trans (List.Perm.cons q ih) (perm_swap_heads q p qs)

theorem sortDescBy_perm (key : α → Nat) (l : List α) :
    List.Perm (sortDescBy key l) l := by
  induction l with
  | nil => simp [sortDescBy]
  | cons p ps ih =>
    exact List.Perm.trans (insertDescBy_perm key p _) (List.Perm.cons p ih)

theorem insertDescBy_pairwise (key : α → Nat) (p : α) (l : List α)
    (h : l.Pairwise (fun a b => key b ≤ key a)) :
    (insertDescBy key p l).Pairwise (fun a b => key b ≤ key a) := by
  induction l with
  | nil => simp [insertDescBy]
  | cons q qs ih =>
    rcases List.pairwise_cons.mp h with ⟨hq, hqs⟩
    by_cases hc : key q ≤ key p
    · have hstep : insertDescBy key p (q :: qs) = p :: q :: qs := by
        simp [insertDescBy, hc]
      rw [hstep]
      refine List.pairwise_cons.mpr ⟨?_, h⟩
      intro b hb
      rcases List.mem_cons.mp hb with rfl | hb2
      · exact hc
      · exact le_trans (hq b hb2) hc
    · have hstep : insertDescBy key p (q :: qs) = q :: insertDescBy key p qs := by
        simp [insertDescBy, hc]
      rw [hstep]
      refine List.pairwise_cons.mpr ⟨?_, ih hqs⟩
      intro b hb
      have hmem := (insertDescBy_perm key p qs).mem_iff.mp hb
      rcases List.mem_cons.mp hmem with rfl | hb2
      · omega
      · exact hq b hb2

theorem sortDescBy_pairwise (key : α → Nat) (l : List α) :
    (sortDescBy key l).Pairwise (fun a b => key b ≤ key a) := by
  induction l with
  | nil => simp [sortDescBy]
  | cons p ps ih => exact insertDescBy_pairwise key p _ ih

/-- In any list that is sorted non-increasingly on the score and is a
permutation of the three scored demo tools, the unique maximal element (the
5-parameter tool) sits at the head. -/
theorem sorted_head_unique_max (l : List (ToolSpec × Nat))
    (hperm : List.Perm l [(paramTool1, 1), (paramTool5, 5), (paramTool3, 3)])
    (hpw : l.Pairwise (fun a b => b.2 ≤ a.2)) :
    l.head? = some (paramTool5, 5) := by
  cases l with
  | nil =>
    have := hperm.length_eq
    simp at this
  | cons a rest =>
    have hmem5 : (paramTool5, 5) ∈ a :: rest := hperm.mem_iff.mpr (by simp)
    have ha_mem : a ∈ [(paramTool1, 1), (paramTool5, 5), (paramTool3, 3)] :=
      hperm.mem_iff.mp (List.mem_cons_self a rest)
    have hrest := (List.pairwise_cons.mp hpw).1
    have ha5 : a = (paramTool5, 5) := by
      rcases List.mem_cons.mp hmem5 with h5a | h5rest
      · exact h5a.symm
      · have h5le : (5 : Nat) ≤ a.2 := hrest (paramTool5, 5) h5rest
        simp only [List.mem_cons, List.not_mem_nil, or_false] at ha_mem
        rcases ha_mem with h1 | h2 | h3
        · rw [h1] at h5le; simp at h5le
        · exact h2
        · rw [h3] at h5le; simp at h5le
    rw [ha5]
    rfl

theorem scored_snd_eq (tools : List ToolSpec)
    (p : ToolSpec × Nat) (hp : p ∈ tools.map (fun t => (t, toolParamCount t))) :
    p.2 = toolParamCount p.1 := by
  obtain ⟨t, _, rfl⟩ := List.mem_map.mp hp
  rfl

/-- C7: `sample_param_aware_subset` always returns tools in non-increasing
order of declared parameter count (first conjunct); for a non-empty catalog
and `1 ≤ k ≤ |catalog|` it returns exactly `k` tools (second conjunct); and on
the catalog of a 1-parameter, a 5-parameter and a 3-parameter tool with
`k = 2`, the first returned tool is the 5-parameter one for every seed (third
conjunct) — the stable descending sort puts the unique maximum first no matter
how the tie-breaking shuffle permuted the list. -/
theorem c7_sample_param_aware_subset :
    (∀ (tools : List ToolSpec) (k : Nat) (seed : Option Nat),
      (sample_param_aware_subset tools k seed).Pairwise
        (fun a b => toolParamCount b ≤ toolParamCount a)) ∧
    (∀ (tools : List ToolSpec) (k : Nat) (seed : Option Nat),
      tools ≠ [] → 1 ≤ k → k ≤ tools.length →
      (sample_param_aware_subset tools k seed).length = k) ∧
    (∀ seed : Option Nat,
      (sample_param_aware_subset [paramTool1, paramTool5, paramTool3] 2 seed).head? =
        some paramTool5) := by
  have hmain : ∀ (tools : List ToolSpec) (k : Nat) (seed : Option Nat), tools ≠ [] →
      sample_param_aware_subset tools k seed =
        ((sortDescBy Prod.snd
            ((pyShuffle (mtInitOpt seed) (tools.map (fun t => (t, toolParamCount t)))).1)).take
          (max 1 (min k tools.length))).map Prod.fst := by
    intro tools k seed hne
    have hie : tools.isEmpty = false := by
      cases tools with
      | nil => exact absurd rfl hne
      | cons a l => rfl
    simp [sample_param_aware_subset, hie]
  have hsorted_perm : ∀ (tools : List ToolSpec) (seed : Option Nat),
      List.Perm
        (sortDescBy Prod.snd
          ((pyShuffle (mtInitOpt seed) (tools.map (fun t => (t, toolParamCount t)))).1))
        (tools.map (fun t => (t, toolParamCount t))) :=
    fun tools seed => (sortDescBy_perm _ _).trans (pyShuffle_perm _ _)
  refine ⟨?_, ?_, ?_⟩
  · intro tools k seed
    cases htools : tools with
    | nil => simp [sample_param_aware_subset]
    | cons a l =>
      rw [← htools, hmain tools k seed (by simp [htools])]
      rw [List.pairwise_map]
      have hpw := (sortDescBy_pairwise (Prod.snd) _).sublist
        (List.take_sublist (max 1 (min k tools.length))
          (sortDescBy Prod.snd
            ((pyShuffle (mtInitOpt seed) (tools.map (fun t => (t, toolParamCount t)))).1)))
      refine hpw.imp_of_mem ?_
      intro p q hp hq hle
      have hp2 := scored_snd_eq tools p
        ((hsorted_perm tools seed).mem_iff.mp (List.mem_of_mem_take hp))
      have hq2 := scored_snd_eq tools q
        ((hsorted_perm tools seed).mem_iff.mp (List.mem_of_mem_take hq))
      rw [← hp2, ← hq2]
      exact hle
  · intro tools k seed hne hk1 hk2
    rw [hmain tools k seed hne]
    have hlen : (sortDescBy Prod.snd
        ((pyShuffle (mtInitOpt seed) (tools.map (fun t => (t, toolParamCount t)))).1)).length =
        tools.length := by
      simpa using (hsorted_perm tools seed).length_eq
    have hkc : max 1 (min k tools.length) = k := by omega
    simp only [List.length_map, List.length_take, hlen]
    omega
  · intro seed
    have hne : ([paramTool1, paramTool5, paramTool3] : List ToolSpec) ≠ [] :=
      List.cons_ne_nil _ _
    rw [hmain _ 2 seed hne]
    have hscored :
        ([paramTool1, paramTool5, paramTool3] : List ToolSpec).map
          (fun t => (t, toolParamCount t)) =
          [(paramTool1, 1), (paramTool5, 5), (paramTool3, 3)] := rfl
    have hperm : List.Perm
        (sortDescBy Prod.snd ((pyShuffle (mtInitOpt seed)
          (([paramTool1, paramTool5, paramTool3] : List ToolSpec).map
            (fun t => (t, toolParamCount t)))).1))
        [(paramTool1, 1), (paramTool5, 5), (paramTool3, 3)] :=
      (hsorted_perm _ seed).trans (by rw [hscored])
    have hhead := sorted_head_unique_max _ hperm (sortDescBy_pairwise _ _)
    have hkc2 : (max 1 (min 2 ([paramTool1, paramTool5, paramTool3] : List ToolSpec).length)) = 2 :=
      rfl
    rw [hkc2]
    cases hs : sortDescBy Prod.snd ((pyShuffle (mtInitOpt seed)
        (([paramTool1, paramTool5, paramTool3] : List ToolSpec).map
          (fun t => (t, toolParamCount t)))).1) with
    | nil => rw [hs] at hhead; simp at hhead
    | cons a rest =>
      rw [hs] at hhead
      simp only [List.head?_cons, Option.some.injEq] at hhead
      subst hhead
      simp

/-- C7 witness: the length part applied at a concrete catalog and `k`. -/
theorem c7_sample_param_aware_subset_witness :
    (sample_param_aware_subset [weatherTool, timeTool] 2 (some 7)).length = 2 :=
  c7_sample_param_aware_subset.2.1 [weatherTool, timeTool] 2 (some 7)
    (List.cons_ne_nil _ _) (by decide) (by decide)

/-! ## C8: `batched_subsets` -/

theorem batchedGo_length (tools : List ToolSpec)
    (chooser : List ToolSpec → Nat → Option Nat → List ToolSpec)
    (fixed_k : Option Nat) (kmin kmax : Nat) (seed : Option Nat) :
    ∀ (rem i : Nat) (g : MT),
      (batchedGo tools chooser fixed_k kmin kmax seed rem i g).length = rem := by
  intro rem
  induction rem with
  | zero => intro i g; rfl
  | succ rem ih =>
    intro i g
    simp only [batchedGo, List.length_cons]
    rw [ih]

theorem batchedGo_get (tools : List ToolSpec)
    (chooser : List ToolSpec → Nat → Option Nat → List ToolSpec)
    (fixed_k : Option Nat) (kmin kmax : Nat) (seed : Option Nat) :
    ∀ (rem j i : Nat) (g : MT), j < rem →
      (batchedGo tools chooser fixed_k kmin kmax seed rem i g)[j]? =
        some (chooser tools (batchKAt fixed_k kmin kmax g j)
          (seed.map (fun s => s + (i + j)))) := by
  intro rem
  induction rem with
  | zero => intro j i g hj; omega
  | succ rem ih =>
    intro j i g hj
    cases j with
    | zero => simp [batchedGo, batchKAt]
    | succ j =>
      simp only [batchedGo, List.getElem?_cons_succ]
      have harith : i + 1 + j = i + (j + 1) := by omega
      have := ih j (i + 1) (batchStep fixed_k kmin kmax g).2 (by omega)
      rw [harith] at this
      exact this

/-- C8: `batched_subsets` on an empty catalog is the empty list for every
combination of the other arguments; on a non-empty catalog it produces exactly
`total` subsets; and with a global seed `s`, the subset at record index `i` is
produced by the strategy's sampler with the internal seed `s + i`. -/
theorem c8_batched_subsets :
    (∀ (batch_size : Int) (total : Nat) (strategy : String) (seed : Option Nat)
        (k_min : Nat) (k_max : Option Nat),
      batched_subsets [] batch_size total strategy seed k_min k_max = []) ∧
    (∀ (tools : List ToolSpec) (batch_size : Int) (total : Nat) (strategy : String)
        (seed : Option Nat) (k_min : Nat) (k_max : Option Nat),
      tools ≠ [] →
      (batched_subsets tools batch_size total strategy seed k_min k_max).length = total) ∧
    (∀ (tools : List ToolSpec) (batch_size : Int) (total : Nat) (strategy : String)
        (s k_min : Nat) (k_max : Option Nat) (i : Nat),
      tools ≠ [] → i < total →
      (batched_subsets tools batch_size total strategy (some s) k_min k_max)[i]? =
        some (chooseSampler strategy tools
          (batchKAt (batchFixedK tools batch_size)
            (batchKmin k_min (batchKmax tools k_max)) (batchKmax tools k_max)
            (mtInitOpt (some s)) i)
          (some (s + i)))) := by
  have hie : ∀ (tools : List ToolSpec), tools ≠ [] → tools.isEmpty = false := by
    intro tools hne
    cases tools with
    | nil => exact absurd rfl hne
    | cons a l => rfl
  refine ⟨?_, ?_, ?_⟩
  · intro batch_size total strategy seed k_min k_max
    simp [batched_subsets]
  · intro tools batch_size total strategy seed k_min k_max hne
    simp only [batched_subsets, hie tools hne, Bool.false_eq_true, if_false]
    exact batchedGo_length _ _ _ _ _ _ total 0 _
  · intro tools batch_size total strategy s k_min k_max i hne hi
    simp only [batched_subsets, hie tools hne, Bool.false_eq_true, if_false]
    have := batchedGo_get tools (chooseSampler strategy) (batchFixedK tools batch_size)
      (batchKmin k_min (batchKmax tools k_max)) (batchKmax tools k_max) (some s)
      total i 0 (mtInitOpt (some s)) hi
    simpa using this

/-- C8 witness: the non-empty-catalog parts at a concrete two-tool catalog. -/
theorem c8_batched_subsets_witness :
    (batched_subsets [weatherTool, timeTool] 2 3 "random" (some 0) 1 none).length = 3 ∧
    (batched_subsets [weatherTool, timeTool] 2 3 "random" (some 5) 1 none)[1]? =
      some (chooseSampler "random" [weatherTool, timeTool]
        (batchKAt (batchFixedK [weatherTool, timeTool] 2)
          (batchKmin 1 (batchKmax [weatherTool, timeTool] none))
          (batchKmax [weatherTool, timeTool] none) (mtInitOpt (some 5)) 1)
        (some (5 + 1))) :=
  ⟨c8_batched_subsets.2.1 [weatherTool, timeTool] 2 3 "random" (some 0) 1 none
      (List.cons_ne_nil _ _),
    c8_batched_subsets.2.2 [weatherTool, timeTool] 2 3 "random" 5 1 none 1
      (List.cons_ne_nil _ _) (by decide)⟩

/-! ## C3: the train/val split policy of `generate_dataset` -/

/-- C3: when `train_split < 1.0` (within its documented domain `[0,1]`) and at
least one record succeeded, the successful records are shuffled by a generator
seeded with the configured seed and cut at `floor(N * train_split)`: the prefix
is the `train` split and the suffix the `val` split, and the two parts
reassemble the shuffle (nothing is lost or duplicated — the shuffle is a
permutation of the records). When `train_split = 1.0`, all records form the
single `train` split. Run-to-run determinism of the partition for a fixed seed
is the purity of the embedded `random.Random(seed)` shuffle. -/
theorem c3_split_policy :
    (∀ (gc : GenerationConfig) (records : List Record),
      gc.train_split < 1 → 0 ≤ gc.train_split → records ≠ [] →
      ∃ shuffled : List Record,
        shuffled = (pyShuffle (mtInitOpt gc.seed) records).1 ∧
        List.Perm shuffled records ∧
        splitRecords gc records =
          [("train", shuffled.take (ratFloorNat ((records.length : ℚ) * gc.train_split))),
           ("val", shuffled.drop (ratFloorNat ((records.length : ℚ) * gc.train_split)))] ∧
        (shuffled.take (ratFloorNat ((records.length : ℚ) * gc.train_split))).length =
          ratFloorNat ((records.length : ℚ) * gc.train_split) ∧
        shuffled.take (ratFloorNat ((records.length : ℚ) * gc.train_split)) ++
          shuffled.drop (ratFloorNat ((records.length : ℚ) * gc.train_split)) = shuffled) ∧
    (∀ (gc : GenerationConfig) (records : List Record),
      gc.train_split = 1 → splitRecords gc records = [("train", records)]) := by
  constructor
  · intro gc records h1 h0 hne
    have hperm : List.Perm ((pyShuffle (mtInitOpt gc.seed) records).1) records :=
      pyShuffle_perm _ _
    have hlen : ((pyShuffle (mtInitOpt gc.seed) records).1).length = records.length :=
      hperm.length_eq
    have hpos : 0 < records.length := by
      cases records with
      | nil => exact absurd rfl hne
      | cons a l => simp
    have hcond : gc.train_split < 1 ∧ 0 < records.length := ⟨h1, hpos⟩
    have hidx : ratFloorNat ((records.length : ℚ) * gc.train_split) ≤ records.length := by
      have hNpos : (0 : ℚ) < (records.length : ℚ) := by exact_mod_cast hpos
      have hq : (records.length : ℚ) * gc.train_split < (records.length : ℚ) :=
        mul_lt_of_lt_one_right hNpos h1
      have hfl : ⌊(records.length : ℚ) * gc.train_split⌋ < (records.length : Int) :=
        Int.floor_lt.mpr (by exact_mod_cast hq)
      unfold ratFloorNat
      omega
    refine ⟨(pyShuffle (mtInitOpt gc.seed) records).1, rfl, hperm, ?_, ?_, ?_⟩
    · unfold splitRecords
      rw [if_pos hcond, hlen]
    · rw [List.length_take, hlen]
      omega
    · exact List.take_append_drop _ _
  · intro gc records h1
    have hcond : ¬ (gc.train_split < 1 ∧ 0 < records.length) := by
      intro hc
      rw [h1] at hc
      exact absurd hc.1 (lt_irrefl 1)
    unfold splitRecords
    rw [if_neg hcond]

/-- C3 witness: both branches applied at concrete configurations. -/
theorem c3_split_policy_witness :
    (∃ shuffled : List Record,
      shuffled = (pyShuffle (mtInitOpt halfSplitGC.seed) [demoRecord]).1 ∧
      List.Perm shuffled [demoRecord] ∧
      splitRecords halfSplitGC [demoRecord] =
        [("train", shuffled.take
            (ratFloorNat ((([demoRecord] : List Record).length : ℚ) * halfSplitGC.train_split))),
         ("val", shuffled.drop
            (ratFloorNat ((([demoRecord] : List Record).length : ℚ) * halfSplitGC.train_split)))] ∧
      (shuffled.take
          (ratFloorNat ((([demoRecord] : List Record).length : ℚ) * halfSplitGC.train_split))).length =
        ratFloorNat ((([demoRecord] : List Record).length : ℚ) * halfSplitGC.train_split) ∧
      shuffled.take
          (ratFloorNat ((([demoRecord] : List Record).length : ℚ) * halfSplitGC.train_split)) ++
        shuffled.drop
          (ratFloorNat ((([demoRecord] : List Record).length : ℚ) * halfSplitGC.train_split)) =
        shuffled) ∧
    splitRecords demoGC [demoRecord] = [("train", [demoRecord])] :=
  ⟨c3_split_policy.1 halfSplitGC [demoRecord] (by norm_num [halfSplitGC])
      (by norm_num [halfSplitGC]) (List.cons_ne_nil _ _),
    c3_split_policy.2 demoGC [demoRecord] rfl⟩

/-! ## C5, C6, C10: the per-sample pipeline and loop -/

theorem processSample_ok_iff (mc : ModelConfig) (i : Nat) (subset : List ToolSpec)
    (env : SampleEnv) :
    exceptOk (processSample mc i subset env) = !sampleFailsB env := by
  unfold processSample sampleFailsB
  cases hp : generateUserRequest env.problem with
  | error e => simp [exceptOk]
  | ok req =>
    cases hc : env.caller with
    | error e => simp [exceptOk]
    | ok resp =>
      by_cases hcalls : (extractToolCalls resp).isEmpty
      · simp [exceptOk, hcalls]
      · simp only [Bool.not_eq_true] at hcalls
        simp [exceptOk, hcalls]

theorem genLoop_spec (mc : ModelConfig) :
    ∀ (l : List (List ToolSpec × SampleEnv)) (i : Nat) (st : RunState),
      genLoop mc l i st =
        { records := st.records ++
            (l.enumFrom i).filterMap (fun p => (processSample mc p.1 p.2.1 p.2.2).toOption),
          failed := st.failed + l.countP (fun p => sampleFailsB p.2) } := by
  intro l
  induction l with
  | nil => intro i st; simp [genLoop]
  | cons p rest ih =>
    intro i st
    obtain ⟨subset, env⟩ := p
    cases hps : processSample mc i subset env with
    | ok r =>
      have hfail : sampleFailsB env = false := by
        have h2 := processSample_ok_iff mc i subset env
        rw [hps] at h2
        simpa [exceptOk] using h2.symm
      simp only [genLoop, hps]
      rw [ih]
      simp [List.enumFrom_cons, hps, List.countP_cons, hfail, Except.toOption]
    | error e =>
      have hfail : sampleFailsB env = true := by
        have h2 := processSample_ok_iff mc i subset env
        rw [hps] at h2
        simpa [exceptOk] using h2.symm
      simp only [genLoop, hps]
      rw [ih]
      simp only [List.enumFrom_cons, List.filterMap_cons, hps, Except.toOption,
        List.countP_cons, hfail, if_true]
      congr 1
      omega

theorem genLoop_total (mc : ModelConfig) :
    ∀ (l : List (List ToolSpec × SampleEnv)) (i : Nat) (st : RunState),
      (genLoop mc l i st).records.length + (genLoop mc l i st).failed =
        st.records.length + st.failed + l.length := by
  intro l
  induction l with
  | nil => intro i st; simp [genLoop]
  | cons p rest ih =>
    intro i st
    obtain ⟨subset, env⟩ := p
    cases hps : processSample mc i subset env with
    | ok r =>
      simp only [genLoop, hps]
      rw [ih]
      simp
      omega
    | error e =>
      simp only [genLoop, hps]
      rw [ih]
      simp
      omega

/-- C5: over any run of the generation loop, the `failed` counter equals the
number of samples that raised during problem generation or tool calling or
extracted zero valid tool calls; every sample contributes exactly one unit to
either a record or the counter (no exception escapes the loop, which is total
by construction of the embedded `try/except`); and the emitted records are
precisely the outputs of the succeeding samples, so no record stems from a
failed sample. -/
theorem c5_failed_samples_counted (mc : ModelConfig)
    (inputs : List (List ToolSpec × SampleEnv)) :
    (runGeneration mc inputs).failed = inputs.countP (fun p => sampleFailsB p.2) ∧
    (runGeneration mc inputs).records.length + (runGeneration mc inputs).failed =
      inputs.length ∧
    (runGeneration mc inputs).records =
      inputs.enum.filterMap (fun p => (processSample mc p.1 p.2.1 p.2.2).toOption) := by
  refine ⟨?_, ?_, ?_⟩
  · unfold runGeneration
    rw [genLoop_spec]
    simp
  · have := genLoop_total mc inputs 0 {}
    unfold runGeneration
    simpa using this
  · unfold runGeneration
    rw [genLoop_spec]
    simp [List.enum]

/-- C6: when problem generation and tool-call extraction succeed but the judge
raises, the record is still emitted and its judge dict holds exactly the two
provenance keys `model` and `temperature` — no score, verdict, sub-score,
rationale or rubric_version entries. -/
theorem c6_judge_failure_nonfatal (mc : ModelConfig) (i : Nat) (subset : List ToolSpec)
    (env : SampleEnv) (req : String) (resp : ChatResponse) (err : String)
    (hreq : generateUserRequest env.problem = .ok req)
    (hcaller : env.caller = .ok resp)
    (hcalls : extractToolCalls resp ≠ [])
    (hjudge : env.judge = .error err) :
    ∃ r : Record, processSample mc i subset env = .ok r ∧
      r.judge = [("model", JVal.s mc.model), ("temperature", JVal.q mc.temperature)] ∧
      r.judge.map Prod.fst = ["model", "temperature"] := by
  have hie : (extractToolCalls resp).isEmpty = false := by
    cases hx : extractToolCalls resp with
    | nil => exact absurd hx hcalls
    | cons a l => rfl
  refine ⟨createRecord (recordIdFor i) subset req (extractToolCalls resp)
    mc.model mc.temperature none, ?_, rfl, rfl⟩
  unfold processSample
  rw [hreq, hcaller]
  simp only [hie, Bool.false_eq_true, if_false, judge_tool_calls, hjudge, Except.map]

theorem c6_judge_failure_nonfatal_witness :
    ∃ r : Record, processSample demoMC 0 [weatherTool] judgeDownEnv = .ok r ∧
      r.judge = [("model", JVal.s demoMC.model), ("temperature", JVal.q demoMC.temperature)] ∧
      r.judge.map Prod.fst = ["model", "temperature"] :=
  c6_judge_failure_nonfatal demoMC 0 [weatherTool] judgeDownEnv "Hi" demoCallerResp
    "judge down" (by rfl) rfl
    (by intro h; exact absurd (congrArg List.length h) (by decide)) rfl

theorem processSample_language (mc : ModelConfig) (i : Nat) (subset : List ToolSpec)
    (env : SampleEnv) (r : Record) (h : processSample mc i subset env = .ok r) :
    r.language = "en" := by
  unfold processSample at h
  cases hp : generateUserRequest env.problem with
  | error e => rw [hp] at h; simp at h
  | ok req =>
    rw [hp] at h
    cases hc : env.caller with
    | error e => rw [hc] at h; simp at h
    | ok resp =>
      rw [hc] at h
      by_cases hcalls : (extractToolCalls resp).isEmpty
      · simp [hcalls] at h
      · simp only [Bool.not_eq_true] at hcalls
        simp only [hcalls, Bool.false_eq_true, if_false, Except.ok.injEq] at h
        rw [← h]
        rfl

theorem loopEvents_no_write (mc : ModelConfig) :
    ∀ (l : List (List ToolSpec × SampleEnv)) (i : Nat) (p : String)
      (lines : List Record),
      RunEvent.fileWrite p lines ∉ loopEvents mc l i := by
  intro l
  induction l with
  | nil => intro i p lines h; simp [loopEvents] at h
  | cons q rest ih =>
    intro i p lines h
    obtain ⟨subset, env⟩ := q
    simp only [loopEvents, List.mem_cons] at h
    rcases h with h | h
    · cases hps : processSample mc i subset env <;> rw [hps] at h <;> exact RunEvent.noConfusion h
    · exact ih (i + 1) p lines h

theorem splitRecords_mem (gc : GenerationConfig) (records : List Record)
    (name : String) (recs : List Record)
    (h : (name, recs) ∈ splitRecords gc records) : ∀ r ∈ recs, r ∈ records := by
  unfold splitRecords at h
  split at h
  · simp only [List.mem_cons, List.not_mem_nil, or_false, Prod.mk.injEq] at h
    have hperm := pyShuffle_perm (mtInitOpt gc.seed) records
    rcases h with ⟨_, hrecs⟩ | ⟨_, hrecs⟩
    · intro r hr
      rw [hrecs] at hr
      exact hperm.mem_iff.mp (List.mem_of_mem_take hr)
    · intro r hr
      rw [hrecs] at hr
      exact hperm.mem_iff.mp (List.mem_of_mem_drop hr)
  · simp only [List.mem_singleton, Prod.mk.injEq] at h
    intro r hr
    rw [h.2] at hr
    exact hr

/-- C10: every record the generation loop emits has `language = "en"` for
every generation configuration (the configured `language` is never consulted);
every record persisted by a file write carries `language = "en"` too; and the
`Record` schema's `Literal["en"]` admits no other value. -/
theorem c10_record_language :
    (∀ (gc : GenerationConfig) (mc : ModelConfig)
        (inputs : List (List ToolSpec × SampleEnv)),
      (∀ r ∈ (runGeneration mc inputs).records, r.language = "en") ∧
      (∀ (path : String) (lines : List Record),
        RunEvent.fileWrite path lines ∈ runEvents gc mc inputs →
        ∀ r ∈ lines, r.language = "en")) ∧
    (∀ r : Record, recordSchemaValid r → r.language = "en") := by
  have hloop : ∀ (mc : ModelConfig) (inputs : List (List ToolSpec × SampleEnv)),
      ∀ r ∈ (runGeneration mc inputs).records, r.language = "en" := by
    intro mc inputs r hr
    unfold runGeneration at hr
    rw [genLoop_spec] at hr
    simp only [List.nil_append] at hr
    obtain ⟨p, _, hp⟩ := List.mem_filterMap.mp hr
    cases hps : processSample mc p.1 p.2.1 p.2.2 with
    | error e => rw [hps] at hp; simp [Except.toOption] at hp
    | ok r2 =>
      rw [hps] at hp
      simp only [Except.toOption, Option.some.injEq] at hp
      rw [← hp]
      exact processSample_language mc p.1 p.2.1 p.2.2 r2 hps
  refine ⟨?_, ?_⟩
  · intro gc mc inputs
    refine ⟨hloop mc inputs, ?_⟩
    intro path lines hmem r hr
    unfold runEvents at hmem
    rcases List.mem_append.mp hmem with h | h
    · exact absurd h (loopEvents_no_write mc inputs 0 path lines)
    · obtain ⟨nr, hnr, hsome⟩ := List.mem_filterMap.mp h
      by_cases hempty : nr.2.isEmpty
      · simp [writeEvents, hempty] at hsome
      · simp only [hempty, Bool.false_eq_true, if_false, Option.some.injEq] at hsome
        injection hsome with hpath hlines
        rw [← hlines] at hr
        have := splitRecords_mem gc (runGeneration mc inputs).records nr.1 nr.2
          (by rw [← Prod.mk.eta (p := nr)] at hnr; exact hnr) r hr
        exact hloop mc inputs r this
  · intro r h
    exact h.1

/-- C10 witness: the schema part at a concrete valid record plus the loop part
at a concrete run. -/
theorem c10_record_language_witness :
    demoRecord.language = "en" ∧
    (∀ r ∈ (runGeneration demoMC demoInputs).records, r.language = "en") :=
  ⟨c10_record_language.2 demoRecord (by decide),
    (c10_record_language.1 demoGC demoMC demoInputs).1⟩

/-! ## C9: timing of file writes -/

theorem foldl_diskStep_no_write :
    ∀ (evs : List RunEvent) (d : List (String × List Record)),
      (∀ p lines, RunEvent.fileWrite p lines ∉ evs) → evs.foldl diskStep d = d := by
  intro evs
  induction evs with
  | nil => intro d _; rfl
  | cons e rest ih =>
    intro d h
    have hstep : diskStep d e = d := by
      cases e with
      | recordProduced r => rfl
      | sampleFailed => rfl
      | fileWrite p lines => exact absurd (List.mem_cons_self _ _) (h p lines)
    rw [List.foldl_cons, hstep]
    exact ih d (fun p lines hmem => h p lines (List.mem_cons_of_mem _ hmem))

theorem interruptedDisk_empty (mc : ModelConfig)
    (inputs : List (List ToolSpec × SampleEnv)) (i : Nat) :
    interruptedDisk mc inputs i = [] := by
  unfold interruptedDisk diskAfter
  apply foldl_diskStep_no_write
  intro p lines hmem
  exact loopEvents_no_write mc inputs 0 p lines (List.mem_of_mem_take hmem)

/-- C9 counterexample: the claim — every record that succeeded among the first
`i` samples is on disk when the run is interrupted after `i` samples — is
false at a concrete one-sample run whose sample succeeds: the loop performs no
file writes (the JSONL files are written only after the loop), so the disk is
empty although a record was produced. -/
theorem c9_incremental_append_counterexample :
    ¬ incrementalPersistence demoMC demoInputs := by
  intro h
  have h1 := h 1 (by decide)
  have hrec : (runGeneration demoMC (demoInputs.take 1)).records = [demoRecord] := rfl
  have hmem : demoRecord ∈ (runGeneration demoMC (demoInputs.take 1)).records := by
    rw [hrec]
    exact List.mem_singleton_self _
  obtain ⟨p, hp⟩ := h1 demoRecord hmem
  rw [interruptedDisk_empty] at hp
  simp [fileOn] at hp

/-- C9 (amended): the loop accumulates successful records in memory and writes
nothing to disk — a run interrupted after any number of samples retains no
records on disk; the split files are written once, after the loop, and
together they hold exactly the successful records (as a permutation: the split
shuffles before cutting). -/
theorem c9_batch_write_amended (gc : GenerationConfig) (mc : ModelConfig)
    (inputs : List (List ToolSpec × SampleEnv)) :
    (∀ i, i ≤ inputs.length → interruptedDisk mc inputs i = []) ∧
    List.Perm
      (fileOn (diskAfter (runEvents gc mc inputs)) "train.jsonl" ++
        fileOn (diskAfter (runEvents gc mc inputs)) "val.jsonl")
      (runGeneration mc inputs).records := by
  refine ⟨fun i _ => interruptedDisk_empty mc inputs i, ?_⟩
  have hDA : diskAfter (runEvents gc mc inputs) =
      (writeEvents (splitRecords gc (runGeneration mc inputs).records)).foldl diskStep [] := by
    unfold runEvents diskAfter
    rw [List.foldl_append]
    rw [foldl_diskStep_no_write (loopEvents mc inputs 0) []
      (fun p lines => loopEvents_no_write mc inputs 0 p lines)]
  rw [hDA]
  generalize (runGeneration mc inputs).records = records
  have htv : ("train.jsonl" : String) ≠ "val.jsonl" := by decide
  have e1 : ("train" ++ ".jsonl" : String) = "train.jsonl" := rfl
  have e2 : ("val" ++ ".jsonl" : String) = "val.jsonl" := rfl
  have hdec : (decide (("train.jsonl" : String) = "val.jsonl")) = false := by decide
  unfold splitRecords
  split
  · have hperm : List.Perm ((pyShuffle (mtInitOpt gc.seed) records).1) records :=
      pyShuffle_perm _ _
    set sh := (pyShuffle (mtInitOpt gc.seed) records).1 with hsh
    set idx := ratFloorNat ((sh.length : ℚ) * gc.train_split) with hidx
    have hsplit : sh.take idx ++ sh.drop idx = sh := List.take_append_drop _ _
    by_cases ht : (sh.take idx).isEmpty
    · have ht0 : sh.take idx = [] := List.isEmpty_iff.mp ht
      by_cases hv : (sh.drop idx).isEmpty
      · have hv0 : sh.drop idx = [] := List.isEmpty_iff.mp hv
        have hsh0 : sh = [] := by rw [← hsplit, ht0, hv0]; rfl
        simp only [writeEvents, List.filterMap_cons, List.filterMap_nil, ht, hv, if_true]
        simp only [List.foldl_nil]
        have : records = [] := by
          have := hperm.length_eq
          rw [hsh0] at this
          cases records with
          | nil => rfl
          | cons a l => simp at this
        rw [this]
        simp [fileOn]
      · simp only [writeEvents, List.filterMap_cons, List.filterMap_nil, ht, hv,
          Bool.false_eq_true, if_true, if_false, e2]
        simp only [List.foldl_cons, List.foldl_nil, diskStep, List.any_nil,
          Bool.false_eq_true, if_false, List.nil_append]
        have hfv : fileOn [("val.jsonl", sh.drop idx)] "val.jsonl" = sh.drop idx := by
          simp [fileOn]
        have hft : fileOn [("val.jsonl", sh.drop idx)] "train.jsonl" = [] := by
          simp [fileOn, List.find?, htv.symm]
        rw [hfv, hft]
        have hx : ([] : List Record) ++ sh.drop idx = sh := by
          rw [← ht0]
          exact hsplit
        rw [hx]
        exact hperm
    · by_cases hv : (sh.drop idx).isEmpty
      · have hv0 : sh.drop idx = [] := List.isEmpty_iff.mp hv
        simp only [writeEvents, List.filterMap_cons, List.filterMap_nil, ht, hv,
          Bool.false_eq_true, if_true, if_false, e1]
        simp only [List.foldl_cons, List.foldl_nil, diskStep, List.any_nil,
          Bool.false_eq_true, if_false, List.nil_append]
        have hft : fileOn [("train.jsonl", sh.take idx)] "train.jsonl" = sh.take idx := by
          simp [fileOn]
        have hfv : fileOn [("train.jsonl", sh.take idx)] "val.jsonl" = [] := by
          simp [fileOn, List.find?, htv]
        rw [hft, hfv]
        have hx : sh.take idx ++ ([] : List Record) = sh := by
          rw [← hv0]
          exact hsplit
        rw [hx]
        exact hperm
      · simp only [writeEvents, List.filterMap_cons, List.filterMap_nil, ht, hv,
          Bool.false_eq_true, if_false, e1, e2]
        simp only [List.foldl_cons, List.foldl_nil, diskStep, List.any_nil, List.any_cons,
          hdec, Bool.or_false, Bool.false_eq_true, if_false, List.nil_append,
          List.singleton_append]
        have hft : fileOn [("train.jsonl", sh.take idx), ("val.jsonl", sh.drop idx)]
            "train.jsonl" = sh.take idx := by
          simp [fileOn, List.find?]
        have hfv : fileOn [("train.jsonl", sh.take idx), ("val.jsonl", sh.drop idx)]
            "val.jsonl" = sh.drop idx := by
          simp [fileOn, List.find?, htv]
        rw [hft, hfv, hsplit]
        exact hperm
  · by_cases hr : records.isEmpty
    · have hr0 : records = [] := List.isEmpty_iff.mp hr
      simp only [writeEvents, List.filterMap_cons, List.filterMap_nil, hr, if_true]
      simp only [List.foldl_nil]
      rw [hr0]
      simp [fileOn]
    · simp only [writeEvents, List.filterMap_cons, List.filterMap_nil, hr,
        Bool.false_eq_true, if_false, e1]
      simp only [List.foldl_cons, List.foldl_nil, diskStep, List.any_nil,
        Bool.false_eq_true, if_false, List.nil_append]
      have hft : fileOn [("train.jsonl", records)] "train.jsonl" = records := by
        simp [fileOn]
      have hfv : fileOn [("train.jsonl", records)] "val.jsonl" = [] := by
        simp [fileOn, List.find?, htv]
      rw [hft, hfv]
      simp

/-- C9 amended-claim witness: the empty-disk part applied at the concrete
one-sample run. -/
theorem c9_batch_write_amended_witness :
    interruptedDisk demoMC demoInputs 1 = [] :=
  (c9_batch_write_amended demoGC demoMC demoInputs).1 1 (by decide)

/-! ## C4: the retry policy of `ChatModelClient.create` -/

theorem delays_range_shift (iD mD : ℚ) (errs : Nat → ApiFailure) :
    ∀ (t a : Nat),
      (List.range (t + 1)).map (fun u => backoffDelay iD mD (a + u) (errs (a + u))) =
        backoffDelay iD mD a (errs a) ::
          (List.range t).map
            (fun u => backoffDelay iD mD ((a + 1) + u) (errs ((a + 1) + u))) := by
  intro t
  induction t with
  | zero =>
    intro a
    have h1 : List.range 1 = [0] := rfl
    simp [h1]
  | succ t ih =>
    intro a
    have h3 : a + (t + 1) = a + 1 + t := by omega
    rw [List.range_succ, List.map_append, ih a]
    simp [List.range_succ, List.map_append, List.cons_append, h3]

theorem createLoop_skip (env : Nat → Except ApiFailure ChatResponse)
    (errs : Nat → ApiFailure) (mr : Nat) (iD mD : ℚ) :
    ∀ (t a : Nat) (s : List ℚ),
      a + t ≤ mr →
      (∀ u, a ≤ u → u < a + t → env u = .error (errs u) ∧ shouldRetry (errs u) = true) →
      createLoop env mr iD mD a s =
        createLoop env mr iD mD (a + t)
          (s ++ (List.range t).map (fun u => backoffDelay iD mD (a + u) (errs (a + u)))) := by
  intro t
  induction t with
  | zero => intro a s _ _; simp
  | succ t ih =>
    intro a s hb herr
    have h0 := herr a (le_refl a) (by omega)
    have hstep : createLoop env mr iD mD a s =
        createLoop env mr iD mD (a + 1) (s ++ [backoffDelay iD mD a (errs a)]) := by
      rw [createLoop]
      rw [h0.1]
      have hnotother : ∀ m, errs a ≠ ApiFailure.otherException m := by
        intro m hm
        rw [hm] at h0
        simp [shouldRetry] at h0
      have hcond : ¬ (shouldRetry (errs a) = false ∨ mr ≤ a) := by
        intro hc
        rcases hc with hc | hc
        · rw [h0.2] at hc
          simp at hc
        · omega
      cases he : errs a with
      | otherException m => exact absurd he (hnotother m)
      | rateLimit h =>
        rw [he] at hcond
        simp only [dif_neg hcond]
      | apiStatus sc =>
        rw [he] at hcond
        simp only [dif_neg hcond]
    rw [hstep]
    have hih := ih (a + 1) (s ++ [backoffDelay iD mD a (errs a)]) (by omega)
      (fun u hu1 hu2 => herr u (by omega) (by omega))
    rw [hih, delays_range_shift iD mD errs t a]
    have h4 : a + 1 + t = a + (t + 1) := by omega
    rw [h4, List.append_assoc, List.singleton_append]

/-- C4: the retry behaviour of `ChatModelClient.create`.
First conjunct: after `t ≤ max_retries` transient failures (rate limits or
5xx `APIError`s), a successful attempt returns the response, having slept
exactly the backoff delays `min(initial_retry_delay * 2 ** u, max_retry_delay)`
— overridden by a parseable `retry-after` header on a rate-limit error
(`backoffDelay`).
Second conjunct: a non-transient failure (4xx `APIError`, or any non-OpenAI
exception) terminates with `APIRequestError` immediately, adding no retry
sleep; with `t = 0` there are no sleeps at all.
Third conjunct: when every attempt `0..max_retries` fails transiently, the
client raises `RateLimitExceeded` when the last error was a rate limit, and
`APIRequestError` otherwise. -/
theorem c4_create_retry_policy :
    (∀ (env : Nat → Except ApiFailure ChatResponse) (errs : Nat → ApiFailure)
        (mr : Nat) (iD mD : ℚ) (t : Nat) (r : ChatResponse),
      t ≤ mr →
      (∀ u, u < t → env u = .error (errs u) ∧ shouldRetry (errs u) = true) →
      env t = .ok r →
      clientCreate env mr iD mD =
        .success r ((List.range t).map (fun u => backoffDelay iD mD u (errs u)))) ∧
    (∀ (env : Nat → Except ApiFailure ChatResponse) (errs : Nat → ApiFailure)
        (mr : Nat) (iD mD : ℚ) (t : Nat) (e : ApiFailure),
      t ≤ mr →
      (∀ u, u < t → env u = .error (errs u) ∧ shouldRetry (errs u) = true) →
      env t = .error e → shouldRetry e = false →
      clientCreate env mr iD mD =
        .apiRequestError ((List.range t).map (fun u => backoffDelay iD mD u (errs u)))) ∧
    (∀ (env : Nat → Except ApiFailure ChatResponse) (errs : Nat → ApiFailure)
        (mr : Nat) (iD mD : ℚ),
      (∀ u, u ≤ mr → env u = .error (errs u) ∧ shouldRetry (errs u) = true) →
      (∀ h, errs mr = ApiFailure.rateLimit h →
        clientCreate env mr iD mD =
          .rateLimitExceeded ((List.range mr).map (fun u => backoffDelay iD mD u (errs u)))) ∧
      (∀ sc, errs mr = ApiFailure.apiStatus sc →
        clientCreate env mr iD mD =
          .apiRequestError ((List.range mr).map (fun u => backoffDelay iD mD u (errs u))))) := by
  have hskip : ∀ (env : Nat → Except ApiFailure ChatResponse) (errs : Nat → ApiFailure)
      (mr : Nat) (iD mD : ℚ) (t : Nat),
      t ≤ mr →
      (∀ u, u < t → env u = .error (errs u) ∧ shouldRetry (errs u) = true) →
      clientCreate env mr iD mD =
        createLoop env mr iD mD t
          ((List.range t).map (fun u => backoffDelay iD mD u (errs u))) := by
    intro env errs mr iD mD t ht herr
    unfold clientCreate
    have := createLoop_skip env errs mr iD mD t 0 [] (by omega)
      (fun u _ hu => herr u (by omega))
    simpa using this
  refine ⟨?_, ?_, ?_⟩
  · intro env errs mr iD mD t r ht herr hok
    rw [hskip env errs mr iD mD t ht herr]
    rw [createLoop, hok]
  · intro env errs mr iD mD t e ht herr herrt hnoretry
    rw [hskip env errs mr iD mD t ht herr]
    rw [createLoop, herrt]
    cases e with
    | otherException m => rfl
    | rateLimit h => simp [shouldRetry] at hnoretry
    | apiStatus sc =>
      simp only [dif_pos (Or.inl hnoretry)]
  · intro env errs mr iD mD herr
    have hall : ∀ u, u < mr → env u = .error (errs u) ∧ shouldRetry (errs u) = true :=
      fun u hu => herr u (by omega)
    have hlast := herr mr (le_refl mr)
    constructor
    · intro h hrl
      rw [hskip env errs mr iD mD mr (le_refl mr) hall]
      rw [createLoop, hlast.1, hrl]
      simp only [dif_pos (Or.inr (le_refl mr))]
    · intro sc hst
      rw [hskip env errs mr iD mD mr (le_refl mr) hall]
      rw [createLoop, hlast.1, hst]
      simp only [dif_pos (Or.inr (le_refl mr))]

/-- C4 witness: the three behaviours at concrete transports — one rate limit
with a 5-second retry-after hint then success; an immediate 404 with no sleep;
and a permanent 503 exhausting two retries. -/
theorem c4_create_retry_policy_witness :
    clientCreate retryOnceEnv 3 1 60 =
      .success demoChatResp
        ((List.range 1).map (fun u => backoffDelay 1 60 u (retryOnceErrs u))) ∧
    clientCreate notFoundEnv 3 1 60 =
      .apiRequestError ((List.range 0).map (fun u => backoffDelay 1 60 u (notFoundErrs u))) ∧
    clientCreate alwaysDownEnv 2 1 60 =
      .apiRequestError ((List.range 2).map (fun u => backoffDelay 1 60 u (alwaysDownErrs u))) :=
  ⟨c4_create_retry_policy.1 retryOnceEnv retryOnceErrs 3 1 60 1 demoChatResp
      (by decide)
      (fun u hu => by
        have hu0 : u = 0 := by omega
        subst hu0
        exact ⟨rfl, rfl⟩)
      rfl,
    c4_create_retry_policy.2.1 notFoundEnv notFoundErrs 3 1 60 0 (.apiStatus (some 404))
      (by decide) (fun u hu => absurd hu (by omega)) rfl (by decide),
    (c4_create_retry_policy.2.2 alwaysDownEnv alwaysDownErrs 2 1 60
      (fun u _ => ⟨rfl, rfl⟩)).2 (some 503) rfl⟩

end Toolsgen
